import Mathlib

/-!
Verification of `scripts/build_umap_sample_gallery.py` (parse_subsampling repo):
shallow embedding of the compact sequence codec, the report extractor, the
layout engine (global square bounds, fraction×replicate matrix) and the two
renderers' panel-selection logic, with theorems settling the spec claims.

Python floats are modelled by `ℚ` (the arithmetic in the script is plain
field arithmetic on decimal literals); Python ints by `ℤ`; strings by
`String`/`List Char`.
-/

namespace Gallery

/-! ### Number parsing (models Python `float()` / `int()` on decimal literals) -/

def isDigit (c : Char) : Bool := ('0' ≤ c) && (c ≤ '9')

def digitVal (c : Char) : ℕ := c.toNat - '0'.toNat

def digitsToNat (ds : List Char) : ℕ := ds.foldl (fun a c => 10 * a + digitVal c) 0

/-- Split a char list into its leading run of decimal digits and the rest. -/
def takeDigits : List Char → (List Char × List Char)
  | [] => ([], [])
  | c :: cs =>
    if isDigit c then
      let (ds, rest) := takeDigits cs
      (c :: ds, rest)
    else ([], c :: cs)

/-- Optional leading sign: returns (sign as -1 or 1, remaining chars). -/
def readSign : List Char → (ℤ × List Char)
  | [] => (1, [])
  | c :: cs =>
    if c = '-' then (-1, cs)
    else if c = '+' then (1, cs)
    else (1, c :: cs)

/-- Models Python `int(s)` on an optionally signed run of decimal digits
(the only shapes the report payloads use); anything else raises, i.e. `none`. -/
def pyInt (s : String) : Option ℤ :=
  let (sg, cs) := readSign s.toList
  let (ds, rest) := takeDigits cs
  if ds = [] ∨ rest ≠ [] then none else some (sg * (digitsToNat ds : ℤ))

/-- Models Python `float(s)` on an optionally signed plain decimal literal
`digits [. digits]` or `. digits` (the only shapes the report payloads use);
anything else raises, i.e. `none`. -/
def pyFloat (s : String) : Option ℚ :=
  let (sg, cs) := readSign s.toList
  let (ip, cs1) := takeDigits cs
  match cs1 with
  | [] => if ip = [] then none else some ((sg : ℚ) * (digitsToNat ip : ℚ))
  | c :: cs2 =>
    if c = '.' then
      let (fp, cs3) := takeDigits cs2
      if cs3 ≠ [] then none
      else if ip = [] ∧ fp = [] then none
      else some ((sg : ℚ) * ((digitsToNat ip : ℚ) + (digitsToNat fp : ℚ) / (10 : ℚ) ^ fp.length))
    else none

/-! ### Compact sequence codec (`decode_nlist`, `decode_comlist`) -/

/-- Python `s.split(sep)` for a one-character separator: splits at every
occurrence, keeping empty fragments (so `"".split(",") = [""]` and
`"1,,2".split(",") = ["1","","2"]`). -/
def splitChar (sep : Char) : List Char → List (List Char)
  | [] => [[]]
  | c :: cs =>
    let r := splitChar sep cs
    if c = sep then [] :: r
    else
      match r with
      | [] => [[c]]
      | g :: gs => (c :: g) :: gs

/-- `splitChar` never returns an empty list of fragments. -/
theorem splitChar_ne_nil (sep : Char) (cs : List Char) : splitChar sep cs ≠ [] := by
  cases cs with
  | nil => simp [splitChar]
  | cons c cs =>
    simp only [splitChar]
    split
    · simp
    · split
      · simp
      · simp

/-- Python `s.split(",")` on a `String`, as a list of `String` fragments. -/
def pySplit (sep : Char) (s : String) : List String :=
  (splitChar sep s.toList).map String.mk

/-- Split a token at its FIRST `x` (Python `word.split("x", 1)`):
returns (part before the first x, part after it). Only called on words
containing an `x`. -/
def splitFirstX : List Char → (List Char × List Char)
  | [] => ([], [])
  | c :: cs =>
    if c = 'x' then ([], cs)
    else
      let (a, b) := splitFirstX cs
      (c :: a, b)

/-- Decode one non-empty comma token of the compact numeric format, per the
body of the loop in `decode_nlist`: `numxcount` expands to `count` copies
(`[num] * count` is empty for `count ≤ 0`), a bare token to one value.
`none` models a raised `ValueError` from `int()`/`float()`. -/
def decodeWord (word : String) : Option (List ℚ) :=
  if 'x' ∈ word.toList then
    let (numCs, countCs) := splitFirstX word.toList
    (pyInt (String.mk countCs)).bind fun count =>
      (pyFloat (String.mk numCs)).map fun num =>
        if count = 1 then [num] else List.replicate count.toNat num
  else
    (pyFloat word).map fun num => [num]

/-- The token loop of `decode_nlist`: empty words are skipped (`continue`),
other words are decoded and appended in order. -/
def decodeWords : List String → Option (List ℚ)
  | [] => some []
  | w :: ws =>
    if w = "" then decodeWords ws
    else
      (decodeWord w).bind fun vs =>
        (decodeWords ws).map fun rest => vs ++ rest

/-- `decode_nlist` from the source: early-returns `[]` on empty input,
otherwise splits on commas and expands each token. -/
def decode_nlist (raw : String) : Option (List ℚ) :=
  if raw = "" then some []
  else decodeWords (pySplit ',' raw)

/-- `decode_comlist` from the source: `[]` on empty input, else a plain
comma split (empty tokens are kept). -/
def decode_comlist (raw : String) : List String :=
  if raw = "" then []
  else pySplit ',' raw

example : decode_nlist "1.5,2x3,0.25" = some [3/2, 2, 2, 2, 1/4] := by
  simp +decide [decode_nlist, decodeWords, decodeWord, pySplit, splitChar, splitFirstX,
    pyFloat, pyInt, readSign, takeDigits, isDigit, digitsToNat, digitVal]
  norm_num
example : decode_nlist "" = some [] := by decide
example : decode_nlist "1,,2" = some [1, 2] := by
  simp +decide [decode_nlist, decodeWords, decodeWord, pySplit, splitChar, splitFirstX,
    pyFloat, pyInt, readSign, takeDigits, isDigit, digitsToNat, digitVal]
example : decode_comlist "1,,2" = ["1", "", "2"] := by decide

/-! ### Report extractor (`_extract_js_single_quoted`, `extract_umap_sample_traces`)

The source locates each embedded assignment with the regex template
`const\s+{var}\s*=\s*{func}\(\s*'((?:\\'|[^'])*)'\s*\);` (searched with
`re.search`, i.e. leftmost match wins).  The matcher below implements that
pattern over `List Char`, including the regex engine's backtracking in the
payload group: at each step the alternative `\\'` is preferred, then `[^']`,
and the group is exited (to match the closing `'\s*\);`) only when both fail.
The `\s*` runs are followed by non-space literals, so maximal munch for them
is exact. -/

/-- Python regex `\s` character class (with `re.S` only `.` changes). -/
def isPySpace (c : Char) : Bool :=
  c = ' ' || c = '\t' || c = '\n' || c = '\r' || c = '\x0b' || c = '\x0c'

/-- Match a literal: `lit pat cs` returns the remainder of `cs` after the
prefix `pat`, or `none`. -/
def lit : List Char → List Char → Option (List Char)
  | [], cs => some cs
  | _ :: _, [] => none
  | p :: ps, c :: cs => if c = p then lit ps cs else none

/-- `\s*` followed by a non-space literal: consume the maximal space run. -/
def ws0 (cs : List Char) : List Char := cs.dropWhile isPySpace

/-- `\s+` followed by a non-space literal: at least one space, then maximal. -/
def ws1 : List Char → Option (List Char)
  | [] => none
  | c :: cs => if isPySpace c then some (ws0 cs) else none

/-- After the payload group: the closing `'\s*\);`. Returns the remainder. -/
def closeScan : List Char → Option (List Char)
  | [] => none
  | c :: cs => if c = '\'' then lit [')', ';'] (ws0 cs) else none

/-- The payload group `((?:\\'|[^'])*)` followed by `'\s*\);`, with the regex
engine's preference order and backtracking.  Returns the raw captured payload
(escapes still two characters) and the remainder after `);`. -/
def payloadScan : List Char → Option (List Char × List Char)
  | [] => none
  | [c1] =>
    -- escape needs two chars; a single consumed char leaves `[]`, where the
    -- rest of the pattern cannot match: only exiting the group can succeed
    (closeScan [c1]).map fun rest => ([], rest)
  | c1 :: c2 :: rest2 =>
    Option.orElse
      (if c1 = '\\' ∧ c2 = '\'' then
        (payloadScan rest2).map fun pr => (c1 :: c2 :: pr.1, pr.2)
      else none)
      (fun _ =>
        Option.orElse
          (if c1 ≠ '\'' then (payloadScan (c2 :: rest2)).map fun pr => (c1 :: pr.1, pr.2) else none)
          (fun _ => (closeScan (c1 :: c2 :: rest2)).map fun rest => ([], rest)))

/-- Attempt the whole template at the start of `cs`; returns the raw payload. -/
def matchAt (varName funcName : List Char) (cs : List Char) : Option (List Char) := do
  let cs1 ← lit ['c', 'o', 'n', 's', 't'] cs
  let cs2 ← ws1 cs1
  let cs3 ← lit varName cs2
  let cs4 ← lit ['='] (ws0 cs3)
  let cs5 ← lit funcName (ws0 cs4)
  let cs6 ← lit ['('] cs5
  let cs7 ← lit ['\''] (ws0 cs6)
  let pr ← payloadScan cs7
  pure pr.1

/-- `re.search`: try the template at every start position, leftmost wins. -/
def searchTemplate (varName funcName : List Char) : List Char → Option (List Char)
  | [] => none
  | c :: cs =>
    Option.orElse (matchAt varName funcName (c :: cs))
      (fun _ => searchTemplate varName funcName cs)

/-- Python `raw.replace("\\'", "'")`: left-to-right, non-overlapping. -/
def unescape : List Char → List Char
  | [] => []
  | [c1] => [c1]
  | c1 :: c2 :: rest2 =>
    if c1 = '\\' ∧ c2 = '\'' then '\'' :: unescape rest2
    else c1 :: unescape (c2 :: rest2)

/-- `_extract_js_single_quoted` from the source: find the assignment
`const <var> = <func>('<payload>');`, unescape the payload; `none` models the
raised `ValueError` when the pattern is absent. -/
def _extract_js_single_quoted (text : String) (varName funcName : String) : Option String :=
  (searchTemplate varName.toList funcName.toList text.toList).map
    fun raw => String.mk (unescape raw)

deriving instance DecidableEq for Except

/-- The `ValueError`s `extract_umap_sample_traces` can raise, by site. -/
inductive ExtractErr where
  | extraction (varName funcName : String)
  | decode
  | lengthMismatch (nx ny ns : ℕ)
deriving DecidableEq

/-- `SAMPLE_COLOR_MAP` (module-level dict), as `dict.get`. -/
def SAMPLE_COLOR_MAP (s : String) : Option String :=
  if s = "xcond_1" then some "#1f77b4"
  else if s = "xcond_2" then some "#ff7f0e"
  else if s = "xcond_3" then some "#2ca02c"
  else none

/-- `SAMPLE_NAME_MAP` (module-level dict), as `dict.get`. -/
def SAMPLE_NAME_MAP (s : String) : Option String :=
  if s = "xcond_1" then some "K562"
  else if s = "xcond_2" then some "SK-N-SH"
  else if s = "xcond_3" then some "HEPG2"
  else none

/-- `DISPLAY_COLOR_MAP` (module-level dict), as `dict.get`. -/
def DISPLAY_COLOR_MAP (s : String) : Option String :=
  if s = "K562" then some "#1f77b4"
  else if s = "SK-N-SH" then some "#ff7f0e"
  else if s = "HEPG2" then some "#2ca02c"
  else none

/-- One trace dict of the JSON payload (the fields the claims are about:
`name`, `x`, `y`, `marker.color`; `type`/`mode`/size/opacity are constants). -/
structure Trace where
  name : String
  x : List ℚ
  y : List ℚ
  markerColor : Option String
deriving DecidableEq

/-- Insert one `(x, y)` under label `s`, preserving first-seen group order
(the `OrderedDict` loop of `extract_umap_sample_traces`). -/
def addPoint (groups : List (String × List ℚ × List ℚ)) (s : String) (x y : ℚ) :
    List (String × List ℚ × List ℚ) :=
  match groups with
  | [] => [(s, [x], [y])]
  | (s2, gx, gy) :: rest =>
    if s2 = s then (s2, gx ++ [x], gy ++ [y]) :: rest
    else (s2, gx, gy) :: addPoint rest s x y

/-- Group the aligned triples by label, first-seen order. -/
def groupPoints (triples : List (ℚ × ℚ × String)) : List (String × List ℚ × List ℚ) :=
  triples.foldl (fun groups t => addPoint groups t.2.2 t.1 t.2.1) []

/-- Python `zip(xs, ys, samples)` (all lengths equal where used). -/
def zip3 (xs ys : List ℚ) (ss : List String) : List (ℚ × ℚ × String) :=
  (xs.zip (ys.zip ss)).map fun p => (p.1, p.2.1, p.2.2)

/-- Build one trace dict for a group, per the loop over `grouped.items()`:
display name via `SAMPLE_NAME_MAP.get(sample, sample)`, marker color via
`SAMPLE_COLOR_MAP.get(sample)` (i.e. `None` when absent). -/
def makeTrace (sample : String) (gx gy : List ℚ) : Trace :=
  { name := (SAMPLE_NAME_MAP sample).getD sample
    x := gx
    y := gy
    markerColor := SAMPLE_COLOR_MAP sample }

/-- `extract_umap_sample_traces` from the source, over the report text:
extract the three payloads (any absence raises before decoding), decode them,
enforce the length equality, then group and build traces. -/
def extract_umap_sample_traces (text : String) : Except ExtractErr (List Trace) :=
  match _extract_js_single_quoted text "umap_x" "decode_nlist" with
  | none => .error (.extraction "umap_x" "decode_nlist")
  | some xRaw =>
    match _extract_js_single_quoted text "umap_y" "decode_nlist" with
    | none => .error (.extraction "umap_y" "decode_nlist")
    | some yRaw =>
      match _extract_js_single_quoted text "samples_raw" "decode_comlist" with
      | none => .error (.extraction "samples_raw" "decode_comlist")
      | some sRaw =>
        match decode_nlist xRaw with
        | none => .error .decode
        | some xs =>
          match decode_nlist yRaw with
          | none => .error .decode
          | some ys =>
            let samples := decode_comlist sRaw
            if xs.length = ys.length ∧ ys.length = samples.length then
              .ok ((groupPoints (zip3 xs ys samples)).map fun g => makeTrace g.1 g.2.1 g.2.2)
            else
              .error (.lengthMismatch xs.length ys.length samples.length)

/-- The color the static SVG renderer draws a trace with (`_svg_panel`):
`trace.marker.color or DISPLAY_COLOR_MAP.get(trace.name, "#666")`, where
Python `or` falls through on `None` and on the empty string. -/
def svgTraceColor (t : Trace) : String :=
  match t.markerColor with
  | some c => if c = "" then (DISPLAY_COLOR_MAP t.name).getD "#666" else c
  | none => (DISPLAY_COLOR_MAP t.name).getD "#666"

/-! ### Panel model and layout engine -/

/-- One panel dict of the JSON payload built by `build_panel_payload`
(the fields the renderers' layout logic reads; `source_report`, `n_traces`
and the derived `n_points` are not consulted by any claim and are omitted). -/
structure Panel where
  run_id : String
  sublib : String
  fraction : ℚ
  replicate : ℤ
  is_reference : Bool
  traces : List Trace
deriving DecidableEq

/-- `_iter_panel_points`: every (x, y) of every trace of every panel, in
order (`zip` truncates to the shorter of the two coordinate lists). -/
def iter_panel_points (panels : List Panel) : List (ℚ × ℚ) :=
  panels.flatMap fun p => p.traces.flatMap fun t => t.x.zip t.y

/-- One step of the running min/max loop of `_global_square_bounds`;
`none` is the state before any point is seen (`seen = False`, bounds at
`±inf`), after which `if x < min_x ...` updates are exactly `min`/`max`. -/
def boundsStep (acc : Option (ℚ × ℚ × ℚ × ℚ)) (pt : ℚ × ℚ) : Option (ℚ × ℚ × ℚ × ℚ) :=
  match acc with
  | none => some (pt.1, pt.1, pt.2, pt.2)
  | some (a, b, c, d) => some (min a pt.1, max b pt.1, min c pt.2, max d pt.2)

/-- `_global_square_bounds` from the source: running min/max over all points
(`(-1, 1, -1, 1)` when no point was seen), then a centered square padded by
4% of the larger span, with a span floor of 1. Returned as
`(min_x, max_x, min_y, max_y)`. -/
def _global_square_bounds (panels : List Panel) : ℚ × ℚ × ℚ × ℚ :=
  match (iter_panel_points panels).foldl boundsStep none with
  | none => (-1, 1, -1, 1)
  | some (min_x, max_x, min_y, max_y) =>
    let span_x := max_x - min_x
    let span_y := max_y - min_y
    let span := max (max span_x span_y) 1
    let pad := span * (4 / 100)
    let cx := (min_x + max_x) / 2
    let cy := (min_y + max_y) / 2
    let half := span / 2 + pad
    (cx - half, cx + half, cy - half, cy + half)

/-- The `(fraction, replicate)` key both matrix builders use.  (The JS side
stringifies it as `` `${fraction}|${replicate}` ``, an injective image of the
pair, so the pair itself is the faithful model.) -/
def keyOf (p : Panel) : ℚ × ℤ := (p.fraction, p.replicate)

/-- Association-list lookup (JS `Map.get` / Python `dict.get`). -/
def lookupKey : List ((ℚ × ℤ) × Panel) → (ℚ × ℤ) → Option Panel
  | [], _ => none
  | (k2, v) :: rest, k => if k2 = k then some v else lookupKey rest k

/-- The guarded insert of the interactive renderer's loop:
`if (!matrixByKey.has(key)) matrixByKey.set(key, p)` — first match wins. -/
def jsMapSet (m : List ((ℚ × ℤ) × Panel)) (k : ℚ × ℤ) (p : Panel) :
    List ((ℚ × ℤ) × Panel) :=
  if (lookupKey m k).isSome then m else m ++ [(k, p)]

/-- `matrixByKey` of the interactive renderer (`build_html`'s embedded
`renderAll`): iterate all panels, insert non-reference ones if absent. -/
def matrixByKey (panels : List Panel) : List ((ℚ × ℤ) × Panel) :=
  panels.foldl (fun m p => if p.is_reference then m else jsMapSet m (keyOf p) p) []

/-- Python `dict` insert: overwrite in place if present, else append —
last match wins. -/
def dictSet (m : List ((ℚ × ℤ) × Panel)) (k : ℚ × ℤ) (p : Panel) :
    List ((ℚ × ℤ) × Panel) :=
  match m with
  | [] => [(k, p)]
  | (k2, v) :: rest => if k2 = k then (k2, p) :: rest else (k2, v) :: dictSet rest k p

/-- `non_ref_panels` of `build_svg` (the interactive renderer's
`nonRefPanels` filter is the same predicate). -/
def non_ref_panels (panels : List Panel) : List Panel :=
  panels.filter fun p => !p.is_reference

/-- `panel_by_key` of `build_svg`: the dict comprehension
`{(fraction, replicate): p for p in non_ref_panels}`. -/
def panel_by_key (panels : List Panel) : List ((ℚ × ℤ) × Panel) :=
  (non_ref_panels panels).foldl (fun m p => dictSet m (keyOf p) p) []

/-- Sorted distinct fractions of non-reference panels.  JS spreads a `Set`
and sorts with `(a, b) => a - b`; Python takes `sorted({...})`; both yield
the ascending list of distinct values. -/
def fractions (panels : List Panel) : List ℚ :=
  List.insertionSort (· ≤ ·) ((non_ref_panels panels).map Panel.fraction).dedup

/-- Sorted distinct replicates of non-reference panels (same remark). -/
def replicates (panels : List Panel) : List ℤ :=
  List.insertionSort (· ≤ ·) ((non_ref_panels panels).map Panel.replicate).dedup

/-- A cell of the emitted fraction×replicate grid: a panel card, or the
explicit placeholder (`matrix-empty` div / `missing` rect). -/
inductive Cell where
  | panel (p : Panel)
  | missing
deriving DecidableEq

/-- The cell grid the interactive renderer emits: for every fraction row and
every replicate column, the matching panel's card or an explicit placeholder
(the row/column header elements are not cells). -/
def htmlMatrixCells (panels : List Panel) : List ((ℚ × ℤ) × Cell) :=
  (fractions panels).flatMap fun f =>
    (replicates panels).map fun r =>
      ((f, r),
       match lookupKey (matrixByKey panels) (f, r) with
       | some p => Cell.panel p
       | none => Cell.missing)

/-- The cell grid the static SVG renderer emits (same shape, SVG's map). -/
def svgMatrixCells (panels : List Panel) : List ((ℚ × ℤ) × Cell) :=
  (fractions panels).flatMap fun f =>
    (replicates panels).map fun r =>
      ((f, r),
       match lookupKey (panel_by_key panels) (f, r) with
       | some p => Cell.panel p
       | none => Cell.missing)

/-! ### Entry collection (`collect_entries`, `main`'s empty gate) -/

/-- One row of the grid TSV, as `load_grid` returns it. -/
structure RunMeta where
  run_id : String
  fraction : ℚ
  replicate : ℤ
  is_reference : Bool
deriving DecidableEq

/-- One gallery entry (`src_rel`, a filesystem-relative path string never
consulted by the claims, is omitted). -/
structure GalleryEntry where
  run_id : String
  sublib : String
  fraction : ℚ
  replicate : ℤ
  is_reference : Bool
deriving DecidableEq

/-- Abstract state of the `runs/` tree: whether the root exists, which run
directories exist, and the sorted sublibrary directories matching
`sublib_glob/report_name` under each run directory. -/
structure RunsTree where
  runsDirExists : Bool
  runDirs : List String
  reportsOf : String → List String

/-- The entry-building loop of `collect_entries`: rows whose run directory
does not exist are skipped (`continue`-free `if not run_dir.exists(): continue`),
existing ones contribute one entry per matching report. -/
def entriesFor (gridMeta : List RunMeta) (fs : RunsTree) : List GalleryEntry :=
  gridMeta.flatMap fun meta =>
    if fs.runDirs.contains meta.run_id then
      (fs.reportsOf meta.run_id).map fun sublib =>
        { run_id := meta.run_id
          sublib := sublib
          fraction := meta.fraction
          replicate := meta.replicate
          is_reference := meta.is_reference }
    else []

/-- `collect_entries` from the source: `FileNotFoundError` when the runs
root is absent, otherwise the collected entries (missing individual run
directories never error). -/
def collect_entries (gridMeta : List RunMeta) (fs : RunsTree) :
    Except String (List GalleryEntry) :=
  if !fs.runsDirExists then .error "runs directory not found"
  else .ok (entriesFor gridMeta fs)

/-- `main`'s gate on the collected entries: `SystemExit("No reports found ...")`
exactly when the list is empty. -/
def mainEntries (gridMeta : List RunMeta) (fs : RunsTree) :
    Except String (List GalleryEntry) :=
  match collect_entries gridMeta fs with
  | .error e => .error e
  | .ok entries => if entries.isEmpty then .error "No reports found" else .ok entries

/-! ## Claims -/

/-- C4 (counterexample): on panels with no points, `_global_square_bounds`
returns `(-1, 1, -1, 1)`, whose x-span is `2`, not `1`: the default bounds
value is not a unit square. -/
theorem C4_counterexample :
    _global_square_bounds [] = (-1, 1, -1, 1) ∧
    (_global_square_bounds []).2.1 - (_global_square_bounds []).1 = 2 ∧
    ¬((_global_square_bounds []).2.1 - (_global_square_bounds []).1 = 1) := by
  refine ⟨rfl, by norm_num [_global_square_bounds, iter_panel_points], ?_⟩
  norm_num [_global_square_bounds, iter_panel_points]

/-- C4 (amended): when the panels contain no points at all,
`_global_square_bounds` returns the fixed square `(-1, 1, -1, 1)`, whose
x-span and y-span each equal `2`. -/
theorem C4_default_bounds (panels : List Panel)
    (h : iter_panel_points panels = []) :
    _global_square_bounds panels = (-1, 1, -1, 1) ∧
    (_global_square_bounds panels).2.1 - (_global_square_bounds panels).1 = 2 ∧
    (_global_square_bounds panels).2.2.2 - (_global_square_bounds panels).2.2.1 = 2 := by
  have hb : _global_square_bounds panels = (-1, 1, -1, 1) := by
    simp [_global_square_bounds, h]
  refine ⟨hb, ?_, ?_⟩ <;> rw [hb] <;> norm_num

/-- C4 (witness): the amended statement at the concrete empty panel list. -/
theorem C4_witness :
    _global_square_bounds [] = (-1, 1, -1, 1) ∧
    (_global_square_bounds []).2.1 - (_global_square_bounds []).1 = 2 ∧
    (_global_square_bounds []).2.2.2 - (_global_square_bounds []).2.2.1 = 2 :=
  C4_default_bounds [] rfl

/-! ### Token-level view of `decode_nlist` used by C5/C9 -/

/-- The numeric value a token declares: the part before the first `x` when
the repeat delimiter is present, the whole token otherwise. -/
def tokenNum (w : String) : Option ℚ :=
  if 'x' ∈ w.toList then pyFloat (String.mk (splitFirstX w.toList).1)
  else pyFloat w

/-- The repeat count a token declares: parsed after the first `x` when the
delimiter is present, `1` for a bare (parsable) number. -/
def tokenCount (w : String) : Option ℤ :=
  if 'x' ∈ w.toList then pyInt (String.mk (splitFirstX w.toList).2)
  else (pyFloat w).map fun _ => 1

/-- A non-empty token is well formed when its value parses and its declared
count parses to at least 1 (claim C5's hypothesis). -/
def wordOk (w : String) : Bool :=
  (tokenNum w).isSome && decide (1 ≤ (tokenCount w).getD 0)

/-- The expansion a token contributes: nothing for an empty token, its value
repeated its declared count of times otherwise. -/
def expandWord (w : String) : List ℚ :=
  if w = "" then []
  else List.replicate ((tokenCount w).getD 0).toNat ((tokenNum w).getD 0)

/-- Sum of declared repeat counts over the comma tokens (0 for empties). -/
def declaredTotal (raw : String) : ℕ :=
  ((pySplit ',' raw).map fun w => if w = "" then 0 else ((tokenCount w).getD 0).toNat).sum

theorem decodeWord_wf (w : String) (hw : wordOk w = true) :
    decodeWord w = some (List.replicate ((tokenCount w).getD 0).toNat ((tokenNum w).getD 0)) := by
  by_cases hx : 'x' ∈ w.data
  · simp only [wordOk, tokenNum, tokenCount, String.toList, hx, if_true, Bool.and_eq_true,
      Option.isSome_iff_exists, decide_eq_true_eq] at hw
    obtain ⟨⟨v, hv⟩, hc⟩ := hw
    rcases hcnt : pyInt (String.mk (splitFirstX w.data).2) with _ | c
    · rw [hcnt] at hc; simp at hc
    · rw [hcnt] at hc
      simp only [Option.getD_some] at hc
      simp only [decodeWord, tokenNum, tokenCount, String.toList, hx, if_true, hcnt, hv,
        Option.bind_some, Option.map_some, Option.getD_some]
      by_cases h1 : c = 1
      · subst h1; simp
      · simp [h1]
  · simp only [wordOk, tokenNum, tokenCount, String.toList, hx, if_false, Bool.and_eq_true,
      Option.isSome_iff_exists] at hw
    obtain ⟨⟨v, hv⟩, -⟩ := hw
    simp [decodeWord, tokenNum, tokenCount, String.toList, hx, hv]

theorem decodeWords_wf (ws : List String)
    (h : ∀ w ∈ ws, w ≠ "" → wordOk w = true) :
    decodeWords ws = some (ws.flatMap expandWord) := by
  induction ws with
  | nil => simp [decodeWords]
  | cons w ws ih =>
    have hrest := ih fun w2 hw2 => h w2 (List.mem_cons_of_mem _ hw2)
    by_cases hw : w = ""
    · subst hw
      simp [decodeWords, hrest, expandWord]
    · have hok := h w (List.mem_cons_self _ _) hw
      simp [decodeWords, hw, decodeWord_wf w hok, hrest, expandWord]

/-- C5: for every well-formed compact-numeric text (each non-empty comma
token is a bare number or `number x count`), `decode_nlist` succeeds and
returns exactly each token's value repeated its declared count of times, in
token order, so the output length is the sum of the declared counts (1 for
bare tokens); and the two examples: `"1.5,2x3,0.25"` decodes to
`[1.5, 2.0, 2.0, 2.0, 0.25]` and empty input decodes to `[]`. -/
theorem C5_decode_nlist_wellformed (raw : String)
    (h : ∀ w ∈ pySplit ',' raw, w ≠ "" → wordOk w = true) :
    decode_nlist raw = some ((pySplit ',' raw).flatMap expandWord) ∧
    ((pySplit ',' raw).flatMap expandWord).length = declaredTotal raw ∧
    decode_nlist "1.5,2x3,0.25" = some [3/2, 2, 2, 2, 1/4] ∧
    decode_nlist "" = some [] := by
  refine ⟨?_, ?_, ?_, by decide⟩
  · by_cases hraw : raw = ""
    · subst hraw; simp [decode_nlist, pySplit, splitChar, expandWord]
    · simp [decode_nlist, hraw, decodeWords_wf _ h]
  · rw [List.length_flatMap, declaredTotal]
    congr 1
    apply List.map_congr_left
    intro w _
    by_cases hw : w = "" <;> simp [expandWord, hw]
  · simp +decide [decode_nlist, decodeWords, decodeWord, pySplit, splitChar, splitFirstX,
      pyFloat, pyInt, readSign, takeDigits, isDigit, digitsToNat, digitVal]
    norm_num

/-- C5 (witness): the well-formedness hypothesis holds at the concrete text
`"1.5,2x3,0.25"`, and the theorem evaluates there. -/
theorem C5_witness :
    decode_nlist "1.5,2x3,0.25"
      = some ((pySplit ',' "1.5,2x3,0.25").flatMap expandWord) ∧
    ((pySplit ',' "1.5,2x3,0.25").flatMap expandWord).length = declaredTotal "1.5,2x3,0.25" ∧
    decode_nlist "1.5,2x3,0.25" = some [3/2, 2, 2, 2, 1/4] ∧
    decode_nlist "" = some [] :=
  C5_decode_nlist_wellformed "1.5,2x3,0.25" (by decide)

/-- C9: `decode_nlist` skips empty tokens entirely (filtering them out of
the token list does not change the result, so `"1,,2"` and `"1,2"` decode
identically), while `decode_comlist` keeps each empty token of a non-empty
input as an empty-string label — so texts with identical comma structure can
decode to different lengths (here 2 vs 3). -/
theorem C9_empty_token_asymmetry :
    (∀ ws : List String, decodeWords (ws.filter fun w => w != "") = decodeWords ws) ∧
    decode_nlist "1,,2" = decode_nlist "1,2" ∧
    decode_comlist "1,,2" = ["1", "", "2"] ∧
    (decode_nlist "1,,2").map List.length ≠ some (decode_comlist "1,,2").length := by
  refine ⟨?_, ?_, by decide, ?_⟩
  · intro ws
    induction ws with
    | nil => rfl
    | cons w ws ih =>
      by_cases hw : w = ""
      · subst hw; simp [decodeWords, ih]
      · have : (w != "") = true := by simp [hw]
        simp [List.filter_cons, this, decodeWords, hw, ih]
  · simp +decide [decode_nlist, decodeWords, decodeWord, pySplit, splitChar, splitFirstX,
      pyFloat, pyInt, readSign, takeDigits, isDigit, digitsToNat, digitVal]
  · simp +decide [decode_nlist, decodeWords, decodeWord, pySplit, splitChar, splitFirstX,
      pyFloat, pyInt, readSign, takeDigits, isDigit, digitsToNat, digitVal, decode_comlist]

/-- C9 (witness): the general empty-token conjunct at a concrete token list. -/
theorem C9_witness :
    decodeWords (["1", "", "2"].filter fun w => w != "") = decodeWords ["1", "", "2"] :=
  C9_empty_token_asymmetry.1 ["1", "", "2"]

/-- C6: whenever at least one of the three required embedded assignments
(`umap_x`/`umap_y` via `decode_nlist`, `samples_raw` via `decode_comlist`)
is absent from the report text, `extract_umap_sample_traces` fails with an
extraction error (raised before any decoding) and produces no trace list. -/
theorem C6_missing_assignment_fails (text : String)
    (h : _extract_js_single_quoted text "umap_x" "decode_nlist" = none ∨
         _extract_js_single_quoted text "umap_y" "decode_nlist" = none ∨
         _extract_js_single_quoted text "samples_raw" "decode_comlist" = none) :
    (∃ v f, extract_umap_sample_traces text = .error (.extraction v f)) ∧
    ∀ traces, extract_umap_sample_traces text ≠ .ok traces := by
  have hkind : ∃ v f, extract_umap_sample_traces text = .error (.extraction v f) := by
    rcases hx : _extract_js_single_quoted text "umap_x" "decode_nlist" with _ | xRaw
    · exact ⟨"umap_x", "decode_nlist", by simp [extract_umap_sample_traces, hx]⟩
    · rcases hy : _extract_js_single_quoted text "umap_y" "decode_nlist" with _ | yRaw
      · exact ⟨"umap_y", "decode_nlist", by simp [extract_umap_sample_traces, hx, hy]⟩
      · rcases hs : _extract_js_single_quoted text "samples_raw" "decode_comlist" with _ | sRaw
        · exact ⟨"samples_raw", "decode_comlist", by simp [extract_umap_sample_traces, hx, hy, hs]⟩
        · rcases h with h | h | h <;> simp [hx, hy, hs] at h
  refine ⟨hkind, ?_⟩
  obtain ⟨v, f, he⟩ := hkind
  intro traces hok
  rw [he] at hok
  exact Except.noConfusion hok

/-- C6 (witness): a report text containing only the `umap_x` and `umap_y`
assignments (no `samples_raw`) fails with an extraction error. -/
theorem C6_witness :
    (∃ v f, extract_umap_sample_traces
      "const umap_x = decode_nlist('1');const umap_y = decode_nlist('2');"
      = .error (.extraction v f)) ∧
    ∀ traces, extract_umap_sample_traces
      "const umap_x = decode_nlist('1');const umap_y = decode_nlist('2');" ≠ .ok traces :=
  C6_missing_assignment_fails _ (Or.inr (Or.inr (by decide)))

/-- C7: whenever the three assignments are present and their payloads decode
to sequences of unequal lengths, `extract_umap_sample_traces` fails with the
length-mismatch error carrying the three lengths — no truncation, no trace
list. -/
theorem C7_length_mismatch_fails (text xRaw yRaw sRaw : String)
    (xs ys : List ℚ)
    (hx : _extract_js_single_quoted text "umap_x" "decode_nlist" = some xRaw)
    (hy : _extract_js_single_quoted text "umap_y" "decode_nlist" = some yRaw)
    (hs : _extract_js_single_quoted text "samples_raw" "decode_comlist" = some sRaw)
    (hdx : decode_nlist xRaw = some xs)
    (hdy : decode_nlist yRaw = some ys)
    (hne : ¬(xs.length = ys.length ∧ ys.length = (decode_comlist sRaw).length)) :
    extract_umap_sample_traces text
      = .error (.lengthMismatch xs.length ys.length (decode_comlist sRaw).length) ∧
    ∀ traces, extract_umap_sample_traces text ≠ .ok traces := by
  have he : extract_umap_sample_traces text
      = .error (.lengthMismatch xs.length ys.length (decode_comlist sRaw).length) := by
    simp [extract_umap_sample_traces, hx, hy, hs, hdx, hdy, hne]
  refine ⟨he, ?_⟩
  intro traces hok
  rw [he] at hok
  exact Except.noConfusion hok

/-- C7 (witness): a concrete report with 2 x-values, 2 y-values and 1 label
fails with `lengthMismatch 2 2 1`. -/
theorem C7_witness :
    extract_umap_sample_traces
      "const umap_x = decode_nlist('1,2');const umap_y = decode_nlist('3,4');const samples_raw = decode_comlist('a');"
      = .error (.lengthMismatch 2 2 1) ∧
    ∀ traces, extract_umap_sample_traces
      "const umap_x = decode_nlist('1,2');const umap_y = decode_nlist('3,4');const samples_raw = decode_comlist('a');"
      ≠ .ok traces := by
  have h := C7_length_mismatch_fails
    "const umap_x = decode_nlist('1,2');const umap_y = decode_nlist('3,4');const samples_raw = decode_comlist('a');"
    "1,2" "3,4" "a" [1, 2] [3, 4]
    (by decide) (by decide) (by decide)
    (by simp +decide [decode_nlist, decodeWords, decodeWord, pySplit, splitChar, splitFirstX,
      pyFloat, pyInt, readSign, takeDigits, isDigit, digitsToNat, digitVal])
    (by simp +decide [decode_nlist, decodeWords, decodeWord, pySplit, splitChar, splitFirstX,
      pyFloat, pyInt, readSign, takeDigits, isDigit, digitsToNat, digitVal])
    (by decide)
  simpa using h

/-- Unfolding of the entry loop at one metadata row. -/
theorem entriesFor_cons (m : RunMeta) (grid : List RunMeta) (fs : RunsTree) :
    entriesFor (m :: grid) fs =
      (if fs.runDirs.contains m.run_id then
        (fs.reportsOf m.run_id).map fun sublib =>
          ⟨m.run_id, sublib, m.fraction, m.replicate, m.is_reference⟩
      else []) ++ entriesFor grid fs := by
  simp [entriesFor]

/-- C10: when the runs root exists, a metadata row whose run directory is
absent contributes nothing and raises nothing — `collect_entries` returns
normally and its result equals the result on the metadata with that row
removed; and the pipeline's empty-result error fires exactly when the whole
collected entry list is empty. -/
theorem C10_missing_run_dir_skipped (gridMeta : List RunMeta) (fs : RunsTree)
    (rid : String)
    (hroot : fs.runsDirExists = true)
    (habsent : fs.runDirs.contains rid = false) :
    collect_entries gridMeta fs = .ok (entriesFor gridMeta fs) ∧
    entriesFor gridMeta fs
      = entriesFor (gridMeta.filter fun m => m.run_id != rid) fs ∧
    (mainEntries gridMeta fs = .error "No reports found" ↔ entriesFor gridMeta fs = []) := by
  refine ⟨by simp [collect_entries, hroot], ?_, ?_⟩
  · induction gridMeta with
    | nil => rfl
    | cons m grid ih =>
      by_cases hm : m.run_id = rid
      · have hc : fs.runDirs.contains m.run_id = false := by rw [hm]; exact habsent
        have hb : (m.run_id != rid) = false := by simp [hm]
        have hmem : m.run_id ∉ fs.runDirs := by simpa using hc
        simp [entriesFor_cons, List.filter_cons, hc, hb, hmem, ih]
      · have hb : (m.run_id != rid) = true := by simp [hm]
        simp [entriesFor_cons, List.filter_cons, hb]
        rw [← ih]
  · by_cases hempty : entriesFor gridMeta fs = []
    · simp [mainEntries, collect_entries, hroot, hempty]
    · have hne : (entriesFor gridMeta fs).isEmpty = false := by
        simpa [List.isEmpty_iff] using hempty
      simp [mainEntries, collect_entries, hroot, hne, hempty]

/-- C10 (witness): the theorem at a concrete grid whose only row's run
directory is missing: collection returns `ok` and the pipeline errors only
because the entry list is empty. -/
theorem C10_witness :
    collect_entries [⟨"f010_r1", 2, 1, false⟩]
        ⟨true, [], fun _ => []⟩
      = .ok (entriesFor [⟨"f010_r1", 2, 1, false⟩] ⟨true, [], fun _ => []⟩) ∧
    entriesFor [⟨"f010_r1", 2, 1, false⟩] ⟨true, [], fun _ => []⟩
      = entriesFor (([⟨"f010_r1", 2, 1, false⟩] : List RunMeta).filter
          fun m => m.run_id != "f010_r1") ⟨true, [], fun _ => []⟩ ∧
    (mainEntries [⟨"f010_r1", 2, 1, false⟩] ⟨true, [], fun _ => []⟩
        = .error "No reports found" ↔
      entriesFor [⟨"f010_r1", 2, 1, false⟩] ⟨true, [], fun _ => []⟩ = []) :=
  C10_missing_run_dir_skipped _ _ "f010_r1" rfl rfl

/-! ### C1: first-wins (interactive) vs last-wins (SVG) duplicate handling -/

/-- `Option` fallback (`a` if present, else `b`). -/
def optOr (a b : Option Panel) : Option Panel :=
  match a with
  | some v => some v
  | none => b

/-- The non-reference panels matching key `k`, in panel order. -/
def keyCandidates (panels : List Panel) (k : ℚ × ℤ) : List Panel :=
  panels.filter fun p => !p.is_reference && decide (keyOf p = k)

theorem optOr_none_right (a : Option Panel) : optOr a none = a := by
  cases a <;> rfl

theorem optOr_some_absorb (a : Option Panel) (v : Panel) (c : Option Panel) :
    optOr (optOr a (some v)) c = optOr a (some v) := by
  cases a <;> rfl

theorem lookupKey_append (m1 m2 : List ((ℚ × ℤ) × Panel)) (k : ℚ × ℤ) :
    lookupKey (m1 ++ m2) k = optOr (lookupKey m1 k) (lookupKey m2 k) := by
  induction m1 with
  | nil => simp [lookupKey, optOr]
  | cons e rest ih =>
    by_cases he : e.1 = k
    · simp [lookupKey, he, optOr]
    · simp only [List.cons_append]
      rw [show ((e :: (rest ++ m2)) : List ((ℚ × ℤ) × Panel)) = e :: (rest ++ m2) from rfl]
      cases e with
      | mk k2 v => simp [lookupKey, he, ih]

theorem getLast?_cons_optOr (a : Panel) (l : List Panel) :
    (a :: l).getLast? = optOr l.getLast? (some a) := by
  induction l with
  | nil => rfl
  | cons b l _ =>
    rw [List.getLast?_cons_cons]
    rcases hbl : (b :: l).getLast? with _ | x
    · simp at hbl
    · rfl

theorem lookupKey_dictSet_self (m : List ((ℚ × ℤ) × Panel)) (k : ℚ × ℤ) (p : Panel) :
    lookupKey (dictSet m k p) k = some p := by
  induction m with
  | nil => simp [dictSet, lookupKey]
  | cons e rest ih =>
    cases e with
    | mk k2 v =>
      by_cases he : k2 = k
      · simp [dictSet, lookupKey, he]
      · simp [dictSet, lookupKey, he, ih]

theorem lookupKey_dictSet_other (m : List ((ℚ × ℤ) × Panel)) (k0 k : ℚ × ℤ) (p : Panel)
    (h : k0 ≠ k) :
    lookupKey (dictSet m k0 p) k = lookupKey m k := by
  induction m with
  | nil => simp [dictSet, lookupKey, h]
  | cons e rest ih =>
    cases e with
    | mk k2 v =>
      by_cases he : k2 = k0
      · subst he; simp [dictSet, lookupKey, h]
      · by_cases hek : k2 = k
        · have hk : ¬(k = k0) := fun hh => h hh.symm
          simp [dictSet, lookupKey, he, hek, hk]
        · simp [dictSet, lookupKey, he, hek, ih]

theorem lookup_jsFold (k : ℚ × ℤ) (ps : List Panel) :
    ∀ m : List ((ℚ × ℤ) × Panel),
      lookupKey (ps.foldl (fun m p => if p.is_reference then m else jsMapSet m (keyOf p) p) m) k
        = optOr (lookupKey m k) (keyCandidates ps k).head? := by
  induction ps with
  | nil => intro m; simp [keyCandidates, optOr_none_right]
  | cons p ps ih =>
    intro m
    by_cases href : p.is_reference = true
    · have hfilter : keyCandidates (p :: ps) k = keyCandidates ps k := by
        simp [keyCandidates, List.filter_cons, href]
      simp only [List.foldl_cons, href, if_true]
      rw [ih, hfilter]
    · by_cases hkey : keyOf p = k
      · have hfilter : keyCandidates (p :: ps) k = p :: keyCandidates ps k := by
          simp [keyCandidates, List.filter_cons, href, hkey]
        rcases hm : lookupKey m (keyOf p) with _ | v
        · have hset : jsMapSet m (keyOf p) p = m ++ [(keyOf p, p)] := by
            simp [jsMapSet, hm]
          have hmk : lookupKey m k = none := by rw [← hkey]; exact hm
          simp only [List.foldl_cons, href, if_false, Bool.false_eq_true, hset]
          rw [ih, lookupKey_append]
          have hone : lookupKey [(keyOf p, p)] k = some p := by simp [lookupKey, hkey]
          rw [hone, hmk, hfilter]
          rfl
        · have hset : jsMapSet m (keyOf p) p = m := by simp [jsMapSet, hm]
          have hmk : lookupKey m k = some v := by rw [← hkey]; exact hm
          simp only [List.foldl_cons, href, if_false, Bool.false_eq_true, hset]
          rw [ih, hmk, hfilter]
          rfl
      · have hfilter : keyCandidates (p :: ps) k = keyCandidates ps k := by
          simp [keyCandidates, List.filter_cons, href, hkey]
        have hlook : lookupKey (jsMapSet m (keyOf p) p) k = lookupKey m k := by
          rcases hm : lookupKey m (keyOf p) with _ | v
          · have hset : jsMapSet m (keyOf p) p = m ++ [(keyOf p, p)] := by
              simp [jsMapSet, hm]
            rw [hset, lookupKey_append]
            have hone : lookupKey [(keyOf p, p)] k = none := by simp [lookupKey, hkey]
            rw [hone, optOr_none_right]
          · simp [jsMapSet, hm]
        simp only [List.foldl_cons, href, if_false, Bool.false_eq_true]
        rw [ih, hlook, hfilter]

theorem lookup_dictFold (k : ℚ × ℤ) (ps : List Panel) :
    ∀ m : List ((ℚ × ℤ) × Panel),
      lookupKey (ps.foldl (fun m p => dictSet m (keyOf p) p) m) k
        = optOr ((ps.filter fun p => decide (keyOf p = k)).getLast?) (lookupKey m k) := by
  induction ps with
  | nil => intro m; rfl
  | cons p ps ih =>
    intro m
    by_cases hkey : keyOf p = k
    · have hfilter : ((p :: ps).filter fun p => decide (keyOf p = k))
          = p :: (ps.filter fun p => decide (keyOf p = k)) := by
        simp [List.filter_cons, hkey]
      have h1 : lookupKey (dictSet m (keyOf p) p) k = some p := by
        rw [hkey]; exact lookupKey_dictSet_self m k p
      simp only [List.foldl_cons]
      rw [ih, h1, hfilter, getLast?_cons_optOr, optOr_some_absorb]
    · have hfilter : ((p :: ps).filter fun p => decide (keyOf p = k))
          = ps.filter fun p => decide (keyOf p = k) := by
        simp [List.filter_cons, hkey]
      have h1 : lookupKey (dictSet m (keyOf p) p) k = lookupKey m k :=
        lookupKey_dictSet_other m (keyOf p) k p hkey
      simp only [List.foldl_cons]
      rw [ih, h1, hfilter]

theorem keyMatches_non_ref (panels : List Panel) (k : ℚ × ℤ) :
    ((non_ref_panels panels).filter fun p => decide (keyOf p = k)) = keyCandidates panels k := by
  rw [non_ref_panels, keyCandidates, List.filter_filter]
  apply List.filter_congr
  intro a _
  exact Bool.and_comm _ _

/-- C1 (counterexample): with two non-reference panels sharing the key
`(2, 1)`, the interactive renderer's matrix selects the FIRST panel while
`build_svg`'s dict comprehension selects the LAST — they do not select the
same panel. -/
theorem C1_counterexample :
    lookupKey (matrixByKey
        [⟨"f010_r1", "sublib_1", 2, 1, false, []⟩,
         ⟨"f010_r1b", "sublib_1", 2, 1, false, []⟩]) (2, 1)
      = some ⟨"f010_r1", "sublib_1", 2, 1, false, []⟩ ∧
    lookupKey (panel_by_key
        [⟨"f010_r1", "sublib_1", 2, 1, false, []⟩,
         ⟨"f010_r1b", "sublib_1", 2, 1, false, []⟩]) (2, 1)
      = some ⟨"f010_r1b", "sublib_1", 2, 1, false, []⟩ ∧
    (⟨"f010_r1", "sublib_1", 2, 1, false, []⟩ : Panel)
      ≠ ⟨"f010_r1b", "sublib_1", 2, 1, false, []⟩ := by
  refine ⟨?_, ?_, ?_⟩ <;> decide

/-- C1 (amended): for every panel list and key, the interactive renderer's
matrix maps the key to the FIRST matching non-reference panel in panel
order, while the static SVG renderer's `panel_by_key` maps it to the LAST;
the two agree exactly when the first and last match coincide (e.g. when no
key is duplicated). -/
theorem C1_first_vs_last (panels : List Panel) (k : ℚ × ℤ) :
    lookupKey (matrixByKey panels) k = (keyCandidates panels k).head? ∧
    lookupKey (panel_by_key panels) k = (keyCandidates panels k).getLast? := by
  constructor
  · have h := lookup_jsFold k panels []
    rw [matrixByKey]
    rw [h]
    rfl
  · have h := lookup_dictFold k (non_ref_panels panels) []
    rw [panel_by_key]
    rw [h, keyMatches_non_ref]
    exact optOr_none_right _

/-- C1 (witness): the amended statement at the duplicate-key example. -/
theorem C1_witness :
    lookupKey (matrixByKey
        [⟨"f010_r1", "sublib_1", 2, 1, false, []⟩,
         ⟨"f010_r1b", "sublib_1", 2, 1, false, []⟩]) (2, 1)
      = (keyCandidates
          [⟨"f010_r1", "sublib_1", 2, 1, false, []⟩,
           ⟨"f010_r1b", "sublib_1", 2, 1, false, []⟩] (2, 1)).head? ∧
    lookupKey (panel_by_key
        [⟨"f010_r1", "sublib_1", 2, 1, false, []⟩,
         ⟨"f010_r1b", "sublib_1", 2, 1, false, []⟩]) (2, 1)
      = (keyCandidates
          [⟨"f010_r1", "sublib_1", 2, 1, false, []⟩,
           ⟨"f010_r1b", "sublib_1", 2, 1, false, []⟩] (2, 1)).getLast? :=
  C1_first_vs_last _ (2, 1)

/-- C8: the grid both renderers emit is rectangular and complete — for every
fraction in the sorted distinct fractions and every replicate in the sorted
distinct replicates (of non-reference panels), a cell exists at that
position (panel or explicit placeholder), and the cell count is exactly
rows × columns, so no cell is omitted. -/
theorem C8_matrix_complete (panels : List Panel) (f : ℚ) (r : ℤ)
    (hf : f ∈ fractions panels) (hr : r ∈ replicates panels) :
    (∃ c, ((f, r), c) ∈ htmlMatrixCells panels) ∧
    (∃ c, ((f, r), c) ∈ svgMatrixCells panels) ∧
    (htmlMatrixCells panels).length
      = (fractions panels).length * (replicates panels).length ∧
    (svgMatrixCells panels).length
      = (fractions panels).length * (replicates panels).length := by
  refine ⟨⟨_, List.mem_flatMap.mpr ⟨f, hf, List.mem_map_of_mem _ hr⟩⟩,
          ⟨_, List.mem_flatMap.mpr ⟨f, hf, List.mem_map_of_mem _ hr⟩⟩, ?_, ?_⟩
  · rw [htmlMatrixCells, List.length_flatMap]
    simp only [Function.comp_def, List.length_map]
    rw [List.map_const', List.sum_replicate, smul_eq_mul]
  · rw [svgMatrixCells, List.length_flatMap]
    simp only [Function.comp_def, List.length_map]
    rw [List.map_const', List.sum_replicate, smul_eq_mul]

/-- C8 (witness): the statement at a concrete one-panel list and its single
(fraction, replicate) position. -/
theorem C8_witness :
    (∃ c, (((2 : ℚ), (1 : ℤ)), c)
        ∈ htmlMatrixCells [⟨"f010_r1", "sublib_1", 2, 1, false, []⟩]) ∧
    (∃ c, (((2 : ℚ), (1 : ℤ)), c)
        ∈ svgMatrixCells [⟨"f010_r1", "sublib_1", 2, 1, false, []⟩]) ∧
    (htmlMatrixCells [⟨"f010_r1", "sublib_1", 2, 1, false, []⟩]).length
      = (fractions [⟨"f010_r1", "sublib_1", 2, 1, false, []⟩]).length
        * (replicates [⟨"f010_r1", "sublib_1", 2, 1, false, []⟩]).length ∧
    (svgMatrixCells [⟨"f010_r1", "sublib_1", 2, 1, false, []⟩]).length
      = (fractions [⟨"f010_r1", "sublib_1", 2, 1, false, []⟩]).length
        * (replicates [⟨"f010_r1", "sublib_1", 2, 1, false, []⟩]).length :=
  C8_matrix_complete [⟨"f010_r1", "sublib_1", 2, 1, false, []⟩] 2 1
    (by decide) (by decide)

/-- C2 (counterexample): for the unknown category label `"zzz"` both
renderers use the raw label as display name, but the interactive renderer's
trace carries NO marker color (`None` in the payload, left to the plotting
library) while the static SVG renderer draws it with the fallback `"#666"`:
there is no one agreed color assigned by both. -/
theorem C2_counterexample :
    (makeTrace "zzz" [] []).name = "zzz" ∧
    svgTraceColor (makeTrace "zzz" [] []) = "#666" ∧
    ¬((makeTrace "zzz" [] []).markerColor
        = some (svgTraceColor (makeTrace "zzz" [] []))) := by
  decide

/-- C2 (amended): both renderers give a series the same display name
(`SAMPLE_NAME_MAP.get(label, label)`); for a label in the known color table
both use that one color; but for a label outside the table the interactive
renderer assigns no color (`None`) while the static renderer falls back to
`DISPLAY_COLOR_MAP.get(name, "#666")`. -/
theorem C2_name_color_agreement (s : String) (gx gy : List ℚ) :
    (makeTrace s gx gy).name = (SAMPLE_NAME_MAP s).getD s ∧
    (∀ c, SAMPLE_COLOR_MAP s = some c →
      (makeTrace s gx gy).markerColor = some c ∧
      svgTraceColor (makeTrace s gx gy) = c) ∧
    (SAMPLE_COLOR_MAP s = none →
      (makeTrace s gx gy).markerColor = none ∧
      svgTraceColor (makeTrace s gx gy)
        = (DISPLAY_COLOR_MAP ((SAMPLE_NAME_MAP s).getD s)).getD "#666") := by
  refine ⟨rfl, ?_, ?_⟩
  · intro c hc
    have hcne : c ≠ "" := by
      unfold SAMPLE_COLOR_MAP at hc
      split_ifs at hc
      · rw [Option.some.injEq] at hc; subst hc; decide
      · rw [Option.some.injEq] at hc; subst hc; decide
      · rw [Option.some.injEq] at hc; subst hc; decide
    exact ⟨by simp [makeTrace, hc], by simp [svgTraceColor, makeTrace, hc, hcne]⟩
  · intro hnone
    exact ⟨by simp [makeTrace, hnone], by simp [svgTraceColor, makeTrace, hnone]⟩

/-- C2 (witness): the known label `"xcond_2"` gets `"#ff7f0e"` from both
renderers. -/
theorem C2_witness :
    (makeTrace "xcond_2" [] []).markerColor = some "#ff7f0e" ∧
    svgTraceColor (makeTrace "xcond_2" [] []) = "#ff7f0e" :=
  (C2_name_color_agreement "xcond_2" [] []).2.1 "#ff7f0e" (by decide)

/-! ### C3: the shared square bounds contain every point -/

theorem boundsFold_shrink (pts : List (ℚ × ℚ)) :
    ∀ a0 b0 c0 d0 a b c d : ℚ,
      pts.foldl boundsStep (some (a0, b0, c0, d0)) = some (a, b, c, d) →
      a ≤ a0 ∧ b0 ≤ b ∧ c ≤ c0 ∧ d0 ≤ d := by
  induction pts with
  | nil =>
    intro a0 b0 c0 d0 a b c d h
    simp only [List.foldl_nil, Option.some.injEq, Prod.mk.injEq] at h
    obtain ⟨h1, h2, h3, h4⟩ := h
    subst h1; subst h2; subst h3; subst h4
    exact ⟨le_refl _, le_refl _, le_refl _, le_refl _⟩
  | cons q pts ih =>
    intro a0 b0 c0 d0 a b c d h
    rw [List.foldl_cons] at h
    simp only [boundsStep] at h
    have hs := ih (min a0 q.1) (max b0 q.1) (min c0 q.2) (max d0 q.2) a b c d h
    exact ⟨le_trans hs.1 (min_le_left _ _), le_trans (le_max_left _ _) hs.2.1,
      le_trans hs.2.2.1 (min_le_left _ _), le_trans (le_max_left _ _) hs.2.2.2⟩

theorem boundsFold_contains (pts : List (ℚ × ℚ)) :
    ∀ (acc : Option (ℚ × ℚ × ℚ × ℚ)) (a b c d : ℚ),
      pts.foldl boundsStep acc = some (a, b, c, d) →
      ∀ pt ∈ pts, a ≤ pt.1 ∧ pt.1 ≤ b ∧ c ≤ pt.2 ∧ pt.2 ≤ d := by
  induction pts with
  | nil =>
    intro acc a b c d _ pt hpt
    exact absurd hpt (List.not_mem_nil pt)
  | cons q pts ih =>
    intro acc a b c d h pt hpt
    have hstep : ∃ a2 b2 c2 d2, boundsStep acc q = some (a2, b2, c2, d2) ∧
        a2 ≤ q.1 ∧ q.1 ≤ b2 ∧ c2 ≤ q.2 ∧ q.2 ≤ d2 := by
      cases acc with
      | none =>
        exact ⟨q.1, q.1, q.2, q.2, rfl, le_refl _, le_refl _, le_refl _, le_refl _⟩
      | some t =>
        obtain ⟨ta, tb, tc, td⟩ := t
        exact ⟨min ta q.1, max tb q.1, min tc q.2, max td q.2, rfl,
          min_le_right _ _, le_max_right _ _, min_le_right _ _, le_max_right _ _⟩
    obtain ⟨a2, b2, c2, d2, hacc, h1, h2, h3, h4⟩ := hstep
    rw [List.foldl_cons, hacc] at h
    rcases List.mem_cons.mp hpt with hq | hrest
    · subst hq
      have hs := boundsFold_shrink pts a2 b2 c2 d2 a b c d h
      exact ⟨le_trans hs.1 h1, le_trans h2 hs.2.1,
        le_trans hs.2.2.1 h3, le_trans h4 hs.2.2.2⟩
    · exact ih (some (a2, b2, c2, d2)) a b c d h pt hrest

theorem boundsFold_total (pts : List (ℚ × ℚ)) :
    ∀ s : ℚ × ℚ × ℚ × ℚ, ∃ t, pts.foldl boundsStep (some s) = some t := by
  induction pts with
  | nil => exact fun s => ⟨s, rfl⟩
  | cons q pts ih =>
    intro s
    obtain ⟨sa, sb, sc, sd⟩ := s
    rw [List.foldl_cons]
    simp only [boundsStep]
    exact ih _

/-- C3: for every point of the panels, the computed global bounds contain
it; the region is a square; and it is the box centered on the running
min/max bounding box's center whose side is the larger span (floored at 1)
plus 4% padding on each side. -/
theorem C3_global_bounds_contain (panels : List Panel) (pt : ℚ × ℚ)
    (hpt : pt ∈ iter_panel_points panels) :
    ((_global_square_bounds panels).1 ≤ pt.1 ∧
     pt.1 ≤ (_global_square_bounds panels).2.1 ∧
     (_global_square_bounds panels).2.2.1 ≤ pt.2 ∧
     pt.2 ≤ (_global_square_bounds panels).2.2.2) ∧
    ((_global_square_bounds panels).2.1 - (_global_square_bounds panels).1
      = (_global_square_bounds panels).2.2.2 - (_global_square_bounds panels).2.2.1) ∧
    ∃ mnx mxx mny mxy : ℚ,
      (iter_panel_points panels).foldl boundsStep none = some (mnx, mxx, mny, mxy) ∧
      (_global_square_bounds panels).1 + (_global_square_bounds panels).2.1 = mnx + mxx ∧
      (_global_square_bounds panels).2.2.1 + (_global_square_bounds panels).2.2.2 = mny + mxy ∧
      (_global_square_bounds panels).2.1 - (_global_square_bounds panels).1
        = max (max (mxx - mnx) (mxy - mny)) 1 * (1 + 2 * (4 / 100)) := by
  have hne : iter_panel_points panels ≠ [] := by
    intro h0
    rw [h0] at hpt
    exact absurd hpt (List.not_mem_nil pt)
  obtain ⟨t, hfold⟩ : ∃ t, (iter_panel_points panels).foldl boundsStep none = some t := by
    rcases hp : iter_panel_points panels with _ | ⟨q, rest⟩
    · exact absurd hp hne
    · rw [List.foldl_cons]
      simp only [boundsStep]
      exact boundsFold_total rest _
  obtain ⟨mnx, mxx, mny, mxy⟩ := t
  have hcont := boundsFold_contains (iter_panel_points panels) none mnx mxx mny mxy hfold pt hpt
  obtain ⟨hc1, hc2, hc3, hc4⟩ := hcont
  have hsx : mxx - mnx ≤ max (max (mxx - mnx) (mxy - mny)) 1 :=
    le_trans (le_max_left _ _) (le_max_left _ _)
  have hsy : mxy - mny ≤ max (max (mxx - mnx) (mxy - mny)) 1 :=
    le_trans (le_max_right _ _) (le_max_left _ _)
  have hs1 : (1 : ℚ) ≤ max (max (mxx - mnx) (mxy - mny)) 1 := le_max_right _ _
  have hpad : (0 : ℚ) ≤ max (max (mxx - mnx) (mxy - mny)) 1 * (4 / 100) :=
    mul_nonneg (by linarith) (by norm_num)
  simp only [_global_square_bounds, hfold]
  refine ⟨⟨?_, ?_, ?_, ?_⟩, ?_, mnx, mxx, mny, mxy, rfl, ?_, ?_, ?_⟩
  · linarith
  · linarith
  · linarith
  · linarith
  · ring
  · ring
  · ring
  · ring

/-- C3 (witness): the statement at a one-point panel. -/
theorem C3_witness :
    ((_global_square_bounds [⟨"ref_full", "sublib_1", 1, 0, true,
        [⟨"K562", [0], [0], some "#1f77b4"⟩]⟩]).1 ≤ (0 : ℚ) ∧
     (0 : ℚ) ≤ (_global_square_bounds [⟨"ref_full", "sublib_1", 1, 0, true,
        [⟨"K562", [0], [0], some "#1f77b4"⟩]⟩]).2.1 ∧
     (_global_square_bounds [⟨"ref_full", "sublib_1", 1, 0, true,
        [⟨"K562", [0], [0], some "#1f77b4"⟩]⟩]).2.2.1 ≤ (0 : ℚ) ∧
     (0 : ℚ) ≤ (_global_square_bounds [⟨"ref_full", "sublib_1", 1, 0, true,
        [⟨"K562", [0], [0], some "#1f77b4"⟩]⟩]).2.2.2) ∧
    ((_global_square_bounds [⟨"ref_full", "sublib_1", 1, 0, true,
        [⟨"K562", [0], [0], some "#1f77b4"⟩]⟩]).2.1
      - (_global_square_bounds [⟨"ref_full", "sublib_1", 1, 0, true,
        [⟨"K562", [0], [0], some "#1f77b4"⟩]⟩]).1
      = (_global_square_bounds [⟨"ref_full", "sublib_1", 1, 0, true,
        [⟨"K562", [0], [0], some "#1f77b4"⟩]⟩]).2.2.2
      - (_global_square_bounds [⟨"ref_full", "sublib_1", 1, 0, true,
        [⟨"K562", [0], [0], some "#1f77b4"⟩]⟩]).2.2.1) ∧
    ∃ mnx mxx mny mxy : ℚ,
      (iter_panel_points [⟨"ref_full", "sublib_1", 1, 0, true,
        [⟨"K562", [0], [0], some "#1f77b4"⟩]⟩]).foldl boundsStep none
        = some (mnx, mxx, mny, mxy) ∧
      (_global_square_bounds [⟨"ref_full", "sublib_1", 1, 0, true,
        [⟨"K562", [0], [0], some "#1f77b4"⟩]⟩]).1
        + (_global_square_bounds [⟨"ref_full", "sublib_1", 1, 0, true,
        [⟨"K562", [0], [0], some "#1f77b4"⟩]⟩]).2.1 = mnx + mxx ∧
      (_global_square_bounds [⟨"ref_full", "sublib_1", 1, 0, true,
        [⟨"K562", [0], [0], some "#1f77b4"⟩]⟩]).2.2.1
        + (_global_square_bounds [⟨"ref_full", "sublib_1", 1, 0, true,
        [⟨"K562", [0], [0], some "#1f77b4"⟩]⟩]).2.2.2 = mny + mxy ∧
      (_global_square_bounds [⟨"ref_full", "sublib_1", 1, 0, true,
        [⟨"K562", [0], [0], some "#1f77b4"⟩]⟩]).2.1
        - (_global_square_bounds [⟨"ref_full", "sublib_1", 1, 0, true,
        [⟨"K562", [0], [0], some "#1f77b4"⟩]⟩]).1
        = max (max (mxx - mnx) (mxy - mny)) 1 * (1 + 2 * (4 / 100)) :=
  C3_global_bounds_contain
    [⟨"ref_full", "sublib_1", 1, 0, true, [⟨"K562", [0], [0], some "#1f77b4"⟩]⟩]
    (0, 0) (by decide)

end Gallery
